import Mathlib

/-!
Verification development for the qrie resource/finding reconciliation engine.

The definitions below are a shallow embedding of the Python sources:
  * `Table` models a DynamoDB table as an association list with unique keys
    maintained by `put`; `updateItem` models DynamoDB `UpdateItem` with a
    `SET` expression (which creates the item from the key and the SET values
    when no item exists at the key).
  * `account_in_scope` / `should_evaluate_resource` embed `lambda/scoping.py`.
  * `upsert_resource` / `bulk_upsert_resources` embed
    `data_access/inventory_manager.py`.
  * `put_finding` / `close_finding` / `purge_findings_for_policy` embed
    `data_access/findings_manager.py`.
  * `evaluate_template` embeds the shared evaluator shape of
    `policy_definition.PolicyEvaluator` (scope check, predicate, persist);
    `s3_bucket_public_evaluate` is the concrete
    `S3BucketPublicEvaluator.evaluate`.
  * `scan_policy` embeds `scan_processor/scan_handler.py`, `process_record`
    embeds the per-record body of `event_processor/event_handler.py`, and
    `handle_delete_policy` embeds `api/policies_api.py`.

Timestamps (`describe_time_ms`, `event_time`, ...) are Python ints, modelled
as `Int`.  Attributes that a DynamoDB item may lack are modelled as `Option`.
External capabilities (account tags, OU paths, `describe`) are passed as
explicit function arguments, as are wall-clock readings.
-/

namespace Qrie

/-! ## String helpers (kernel-reducible counterparts of Python `str.split`) -/

/-- Split a character list at every occurrence of `c` (Python `s.split(c)` on
one-character separators: `"a:b".split(":") = ["a","b"]`, `"".split(":") = [""]`). -/
def splitOnChar (c : Char) : List Char → List (List Char)
  | [] => [[]]
  | x :: xs =>
    match splitOnChar c xs with
    | [] => [[x]]
    | y :: ys => if x = c then [] :: y :: ys else (x :: y) :: ys

/-- Python `arn.split(':')` as a list of strings. -/
def splitColon (s : String) : List String :=
  (splitOnChar ':' s.data).map String.mk

/-- Python `p  and  s.startswith(p)`-style prefix test, on the underlying
character lists so that it evaluates in the kernel. -/
def strPrefixOf (p s : String) : Bool := p.data.isPrefixOf s.data

/-- `common_utils.get_account_from_arn`: field 4 of the colon-split ARN;
raises `ValueError` when the ARN has fewer than 5 fields.  (For S3 bucket
ARNs `arn:aws:s3:::name` the account field is the empty string.) -/
def get_account_from_arn (arn : String) : Except String String :=
  let parts := splitColon arn
  if parts.length < 5 then .error "Invalid ARN format" else .ok (parts.getD 4 "")

/-- `common_utils.get_service_from_arn`: field 2 of the colon-split ARN. -/
def get_service_from_arn (arn : String) : Except String String :=
  let parts := splitColon arn
  if parts.length < 3 then .error "Invalid ARN format" else .ok (parts.getD 2 "")

/-! ## DynamoDB table model -/

/-- A DynamoDB table: an association list of key/item pairs.  All tables
produced by the operations below keep at most one entry per key. -/
def Table (κ ι : Type) : Type := List (κ × ι)

namespace Table

variable {κ ι : Type} [DecidableEq κ]

/-- The empty table. -/
def empty : Table κ ι := []

/-- `GetItem`: the item stored at `k`, if any. -/
def get : Table κ ι → κ → Option ι
  | [], _ => none
  | (k0, v0) :: rest, k => if k = k0 then some v0 else get rest k

/-- `PutItem` (unconditional): replace the entry at `k`, or append one. -/
def put : Table κ ι → κ → ι → Table κ ι
  | [], k, v => [(k, v)]
  | (k0, v0) :: rest, k, v =>
    if k = k0 then (k, v) :: rest else (k0, v0) :: put rest k v

/-- `DeleteItem` (unconditional). -/
def del : Table κ ι → κ → Table κ ι
  | [], _ => []
  | (k0, v0) :: rest, k => if k = k0 then del rest k else (k0, v0) :: del rest k

/-- `UpdateItem` with a `SET` expression and no condition: apply `f` to the
stored item, or create `created` (the item assembled from the key and the SET
values) when no item exists at `k`. -/
def updateItem (t : Table κ ι) (k : κ) (f : ι → ι) (created : ι) : Table κ ι :=
  match t.get k with
  | some v => t.put k (f v)
  | none => t.put k created

/-- The keys of a table, in storage order. -/
def keys (t : Table κ ι) : List κ := t.map Prod.fst

theorem get_put_self (t : Table κ ι) (k : κ) (v : ι) : (t.put k v).get k = some v := by
  induction t with
  | nil => simp [put, get]
  | cons hd tl ih =>
    obtain ⟨k0, v0⟩ := hd
    by_cases h : k = k0 <;> simp [put, get, h, ih]

theorem get_put_ne (t : Table κ ι) (k k' : κ) (v : ι) (h : k' ≠ k) :
    (t.put k v).get k' = t.get k' := by
  induction t with
  | nil => simp [put, get, h]
  | cons hd tl ih =>
    obtain ⟨k0, v0⟩ := hd
    by_cases h0 : k = k0
    · subst h0; simp [put, get, h]
    · by_cases h1 : k' = k0 <;> simp [put, get, h0, h1, ih]

theorem put_put_self (t : Table κ ι) (k : κ) (v w : ι) :
    (t.put k v).put k w = t.put k w := by
  induction t with
  | nil => simp [put]
  | cons hd tl ih =>
    obtain ⟨k0, v0⟩ := hd
    by_cases h : k = k0 <;> simp [put, h, ih]

theorem updateItem_get_self (t : Table κ ι) (k : κ) (f : ι → ι) (c : ι) :
    (t.updateItem k f c).get k =
      match t.get k with
      | some v => some (f v)
      | none => some c := by
  cases h : t.get k <;> simp [updateItem, h, get_put_self]

theorem updateItem_get_ne (t : Table κ ι) (k k' : κ) (f : ι → ι) (c : ι) (h : k' ≠ k) :
    (t.updateItem k f c).get k' = t.get k' := by
  cases h0 : t.get k <;> simp [updateItem, h0, get_put_ne t _ _ _ h]

/-- The underlying entry list of a table (for membership statements). -/
def entries (t : Table κ ι) : List (κ × ι) := t

theorem get_eq_some_iff_mem {t : Table κ ι} (hnd : (t.map Prod.fst).Nodup) {k : κ}
    {v : ι} : t.get k = some v ↔ (k, v) ∈ t.entries := by
  induction t with
  | nil => simp [get, entries]
  | cons hd tl ih =>
    obtain ⟨k0, v0⟩ := hd
    simp only [List.map_cons, List.nodup_cons] at hnd
    by_cases h : k = k0
    · subst h
      constructor
      · intro hg
        have hv : v0 = v := by simpa [get] using hg
        subst hv
        exact List.mem_cons_self _ _
      · intro hm
        rcases List.mem_cons.mp hm with heq | hmem
        · have hv : v = v0 := congrArg Prod.snd heq
          simp [get, hv]
        · exact absurd (List.mem_map_of_mem Prod.fst hmem) hnd.1
    · constructor
      · intro hg
        have hg2 : Table.get tl k = some v := by simpa [get, h] using hg
        exact List.mem_cons_of_mem _ ((ih hnd.2).mp hg2)
      · intro hm
        rcases List.mem_cons.mp hm with heq | hmem
        · exact absurd (congrArg Prod.fst heq) h
        · simpa [get, h] using (ih hnd.2).mpr hmem

end Table

/-! ## Scope configuration and resolution (`lambda/scoping.py`) -/

/-- `policy_definition.ScopeConfig`.  Python `None` and the empty
list/dict behave identically in `scoping.py` (both are falsy), so optional
fields are modelled as lists with `[]` for "not configured"; the tag dicts
become association lists of key / value-set pairs. -/
structure ScopeConfig where
  include_accounts : List String := []
  exclude_accounts : List String := []
  include_tags : List (String × List String) := []
  exclude_tags : List (String × List String) := []
  include_ou_paths : List String := []
  exclude_ou_paths : List String := []
deriving DecidableEq

/-- One tag rule matches iff the account has the key with a truthy (non-empty)
value contained in the rule's value set
(`account_tag_value and account_tag_value in tag_values`). -/
def tag_rule_matches (tags : String → Option String) (kv : String × List String) : Bool :=
  match tags kv.1 with
  | some v => if v = "" then false else kv.2.contains v
  | none => false

/-- One OU-path rule matches iff the account's OU path is truthy (present and
non-empty) and starts with the listed prefix
(`account_ou_path and account_ou_path.startswith(ou_path)`). -/
def ou_rule_matches (ou_path : Option String) (p : String) : Bool :=
  match ou_path with
  | some s => if s = "" then false else strPrefixOf p s
  | none => false

/-- `scoping._account_in_scope`.  The account's tags and OU path come from the
external account-metadata capability and are passed in explicitly. -/
def account_in_scope (account_id : String) (scope : ScopeConfig)
    (tags : String → Option String) (ou_path : Option String) : Bool :=
  if !scope.include_accounts.isEmpty && !scope.include_accounts.contains account_id then
    false
  else if !scope.exclude_accounts.isEmpty && scope.exclude_accounts.contains account_id then
    false
  else if !scope.include_tags.isEmpty
      && !(scope.include_tags.any (fun kv => tag_rule_matches tags kv)) then
    false
  else if scope.exclude_tags.any (fun kv => tag_rule_matches tags kv) then
    false
  else if !scope.include_ou_paths.isEmpty
      && !(scope.include_ou_paths.any (fun p => ou_rule_matches ou_path p)) then
    false
  else if scope.exclude_ou_paths.any (fun p => ou_rule_matches ou_path p) then
    false
  else
    true

/-- `scoping.should_evaluate_resource`: account-level scoping only
(resource-level scoping is an acknowledged gap upstream). -/
def should_evaluate_resource (account_id : String) (_resource_arn : String)
    (scope : ScopeConfig) (tags : String → Option String) (ou_path : Option String) : Bool :=
  account_in_scope account_id scope tags ou_path

/-- Modelled from the spec (§4.1): the six scope rules, in the spec's order,
each an immediate exclusion.  Rule `i` firing means the account is out of
scope. -/
def scope_rules (scope : ScopeConfig) (tags : String → Option String)
    (ou_path : Option String) : List (String → Bool) :=
  [ fun a => !scope.include_accounts.isEmpty && !scope.include_accounts.contains a,
    fun a => !scope.exclude_accounts.isEmpty && scope.exclude_accounts.contains a,
    fun _ => !scope.include_tags.isEmpty
      && !(scope.include_tags.any (fun kv => tag_rule_matches tags kv)),
    fun _ => scope.exclude_tags.any (fun kv => tag_rule_matches tags kv),
    fun _ => !scope.include_ou_paths.isEmpty
      && !(scope.include_ou_paths.any (fun p => ou_rule_matches ou_path p)),
    fun _ => scope.exclude_ou_paths.any (fun p => ou_rule_matches ou_path p) ]

/-- Modelled from the spec: apply exclusion rules in order; the first rule
that fires decides "out of scope"; if none fires the account is in scope. -/
def apply_exclusion_rules : List (String → Bool) → String → Bool
  | [], _ => true
  | r :: rs, a => if r a then false else apply_exclusion_rules rs a

/-- C8: the code's scope decision coincides with applying the spec's six
rules in their fixed order, each as an immediate exclusion. -/
theorem scope_decision_is_ordered_rules (account_id : String) (scope : ScopeConfig)
    (tags : String → Option String) (ou_path : Option String) :
    account_in_scope account_id scope tags ou_path =
      apply_exclusion_rules (scope_rules scope tags ou_path) account_id := by
  simp only [account_in_scope, scope_rules, apply_exclusion_rules]

/-- Witness for C8 at a concrete scope: account "222" is excluded by rule 1
of a scope restricted to account "111", on both sides of the equivalence. -/
theorem scope_decision_is_ordered_rules_witness :
    account_in_scope "222" { include_accounts := ["111"] } (fun _ => none) none =
      apply_exclusion_rules
        (scope_rules { include_accounts := ["111"] } (fun _ => none) none) "222" ∧
    account_in_scope "222" { include_accounts := ["111"] } (fun _ => none) none = false :=
  ⟨scope_decision_is_ordered_rules "222" { include_accounts := ["111"] }
      (fun _ => none) none, by decide⟩

/-! ## Resource Store (`data_access/inventory_manager.py`)

Resource items live in a table keyed by `(AccountService, ARN)`.  Only the
attributes touched by the embedded operations are modelled; `DescribeTime`
and `LastSeenAt` are `Option` because bulk-written items need not carry
them. -/

/-- Primary key of the resources table. -/
structure ResourceKey where
  accountService : String
  arn : String
deriving DecidableEq

/-- A resources-table item.  `configuration` is the opaque configuration
document (type parameter `C`). -/
structure ResourceItem (C : Type) where
  configuration : C
  describeTime : Option Int
  lastSeenAt : Option Int
deriving DecidableEq

/-- The resources table. -/
def ResourceTable (C : Type) : Type := Table ResourceKey (ResourceItem C)

/-- `InventoryManager.upsert_resource`: a conditional `UpdateItem` that
sets `Configuration`, `DescribeTime` and `LastSeenAt` under the condition
`attribute_not_exists(ARN) OR attribute_not_exists(DescribeTime) OR
DescribeTime < :now`; a failed condition is swallowed
(`ConditionalCheckFailedException` is expected) and leaves the table as is. -/
def upsert_resource {C : Type} (table : ResourceTable C) (account_id service arn : String)
    (configuration : C) (describe_time_ms : Int) : ResourceTable C :=
  let key : ResourceKey := ⟨account_id ++ "_" ++ service, arn⟩
  let written : ResourceItem C :=
    ⟨configuration, some describe_time_ms, some describe_time_ms⟩
  match table.get key with
  | none => table.put key written
  | some item =>
    match item.describeTime with
    | none => table.put key written
    | some stored => if stored < describe_time_ms then table.put key written else table

/-- `InventoryManager.bulk_upsert_resources`: an unconditional
`batch_writer().put_item` for every supplied item, in list order. -/
def bulk_upsert_resources {C : Type} (table : ResourceTable C)
    (resources : List (ResourceKey × ResourceItem C)) : ResourceTable C :=
  resources.foldl (fun t kv => t.put kv.1 kv.2) table

/-! ## Findings Store (`data_access/findings_manager.py`) -/

/-- Primary key of the findings table: `(ARN, Policy)`. -/
structure FindingKey where
  arn : String
  policy : String
deriving DecidableEq

/-- A `LastEvaluated` value: `put_finding` and `purge_findings_for_policy`
store the describe / wall-clock time in milliseconds, while `close_finding`
stores an ISO-8601 wall-clock string. -/
inductive TimeVal where
  | ms (t : Int)
  | iso (s : String)
deriving DecidableEq

/-- A findings-table item.  Every attribute that some write path leaves
absent is an `Option` (an item created by `close_finding` carries only
`State` and `LastEvaluated`). -/
structure FindingItem (E : Type) where
  state : String
  severity : Option Int
  describeTime : Option Int
  lastEvaluated : Option TimeVal
  evidence : Option E
  accountService : Option String
  firstSeen : Option Int
  resolvedReason : Option String
deriving DecidableEq

/-- The findings table.  `E` is the opaque evidence document type. -/
def FindingsTable (E : Type) : Type := Table FindingKey (FindingItem E)

/-- The item `put_finding` creates when no item exists at the key. -/
def put_finding_created {E : Type} (account_service : String) (severity : Int)
    (state : String) (evidence : E) (describe_time_ms : Int) (first_seen : Int) :
    FindingItem E :=
  ⟨state, some severity, some describe_time_ms, some (.ms describe_time_ms),
    some evidence, some account_service, some first_seen, none⟩

/-- The `SET` part of `put_finding` applied to an existing item:
`FirstSeen` uses `if_not_exists`, `ResolvedReason` is untouched. -/
def put_finding_updated {E : Type} (item : FindingItem E) (account_service : String)
    (severity : Int) (state : String) (evidence : E) (describe_time_ms : Int)
    (first_seen : Int) : FindingItem E :=
  ⟨state, some severity, some describe_time_ms, some (.ms describe_time_ms),
    some evidence, some account_service,
    some (item.firstSeen.getD first_seen), item.resolvedReason⟩

/-- `FindingsManager.put_finding`: conditional `UpdateItem` under
`attribute_not_exists(ARN) OR attribute_not_exists(DescribeTime) OR
DescribeTime < :now`; `first_seen` defaults to `describe_time_ms`; a failed
condition is swallowed and leaves the table as is. -/
def put_finding {E : Type} (table : FindingsTable E) (resource_arn policy_id : String)
    (account_service : String) (severity : Int) (state : String) (evidence : E)
    (describe_time_ms : Int) (first_seen_ms : Option Int := none) : FindingsTable E :=
  let key : FindingKey := ⟨resource_arn, policy_id⟩
  let first_seen := first_seen_ms.getD describe_time_ms
  match table.get key with
  | none =>
    table.put key
      (put_finding_created account_service severity state evidence describe_time_ms first_seen)
  | some item =>
    match item.describeTime with
    | none =>
      table.put key
        (put_finding_updated item account_service severity state evidence describe_time_ms
          first_seen)
    | some stored =>
      if stored < describe_time_ms then
        table.put key
          (put_finding_updated item account_service severity state evidence describe_time_ms
            first_seen)
      else table

/-- `FindingsManager.close_finding`: an *unconditional* `UpdateItem` that
sets `State = RESOLVED` and `LastEvaluated` to the current wall-clock ISO
string.  On a missing key, DynamoDB `UpdateItem` creates the item from the
key and the SET values. -/
def close_finding {E : Type} (table : FindingsTable E) (resource_arn policy_id : String)
    (now_iso : String) : FindingsTable E :=
  Table.updateItem table ⟨resource_arn, policy_id⟩
    (fun item => { item with state := "RESOLVED", lastEvaluated := some (.iso now_iso) })
    ⟨"RESOLVED", none, none, some (.iso now_iso), none, none, none, none⟩

/-- The `SET` of one `purge_findings_for_policy` update. -/
def purge_resolve {E : Type} (now_ms : Int) (item : FindingItem E) : FindingItem E :=
  { item with
      state := "RESOLVED"
      lastEvaluated := some (.ms now_ms)
      resolvedReason := some "POLICY_SUSPENDED" }

/-- The item a purge update would create at a missing key (unreachable from
the scan, but DynamoDB `UpdateItem` is total). -/
def purge_created {E : Type} (now_ms : Int) : FindingItem E :=
  ⟨"RESOLVED", none, none, some (.ms now_ms), none, none, none, some "POLICY_SUSPENDED"⟩

/-- One iteration of the purge loop: update the finding at the scanned key
to `RESOLVED` with the reason tag, and count it. -/
def purge_step {E : Type} (now_ms : Int) (acc : FindingsTable E × Nat)
    (kv : FindingKey × FindingItem E) : FindingsTable E × Nat :=
  (Table.updateItem acc.1 kv.1 (purge_resolve now_ms) (purge_created now_ms), acc.2 + 1)

/-- `FindingsManager.purge_findings_for_policy`: scan for
`Policy = :policy AND State = ACTIVE`, then update each scanned finding to
`RESOLVED` with `ResolvedReason = POLICY_SUSPENDED`, counting the updates. -/
def purge_findings_for_policy {E : Type} (table : FindingsTable E) (policy_id : String)
    (now_ms : Int) : FindingsTable E × Nat :=
  let scanned := table.filter (fun kv => kv.1.policy = policy_id ∧ kv.2.state = "ACTIVE")
  scanned.foldl (purge_step now_ms) (table, 0)

/-! ## CAS protocol lemmas -/

section CasLemmas

variable {C E : Type}

theorem upsert_resource_of_absent (R : ResourceTable C) (a s arn : String) (cfg : C) (t : Int)
    (h : R.get ⟨a ++ "_" ++ s, arn⟩ = none) :
    upsert_resource R a s arn cfg t =
      R.put ⟨a ++ "_" ++ s, arn⟩ ⟨cfg, some t, some t⟩ := by
  simp [upsert_resource, h]

theorem upsert_resource_of_older (R : ResourceTable C) (a s arn : String) (cfg : C) (t : Int)
    (item : ResourceItem C) (stored : Int) (h : R.get ⟨a ++ "_" ++ s, arn⟩ = some item)
    (hdt : item.describeTime = some stored) (hlt : stored < t) :
    upsert_resource R a s arn cfg t =
      R.put ⟨a ++ "_" ++ s, arn⟩ ⟨cfg, some t, some t⟩ := by
  simp [upsert_resource, h, hdt, hlt]

theorem upsert_resource_of_stale (R : ResourceTable C) (a s arn : String) (cfg : C) (t : Int)
    (item : ResourceItem C) (stored : Int) (h : R.get ⟨a ++ "_" ++ s, arn⟩ = some item)
    (hdt : item.describeTime = some stored) (hle : t ≤ stored) :
    upsert_resource R a s arn cfg t = R := by
  simp [upsert_resource, h, hdt, not_lt.mpr hle]

theorem upsert_resource_idem (R : ResourceTable C) (a s arn : String) (cfg : C) (t : Int) :
    upsert_resource (upsert_resource R a s arn cfg t) a s arn cfg t =
      upsert_resource R a s arn cfg t := by
  have hwr : ∀ R' : ResourceTable C,
      R'.get ⟨a ++ "_" ++ s, arn⟩ = some ⟨cfg, some t, some t⟩ →
      upsert_resource R' a s arn cfg t = R' := by
    intro R' h
    simp [upsert_resource, h]
  cases hget : R.get ⟨a ++ "_" ++ s, arn⟩ with
  | none =>
    rw [upsert_resource_of_absent R a s arn cfg t hget]
    exact hwr _ (Table.get_put_self R _ _)
  | some item =>
    cases hdt : item.describeTime with
    | none =>
      have h1 : upsert_resource R a s arn cfg t =
          R.put ⟨a ++ "_" ++ s, arn⟩ ⟨cfg, some t, some t⟩ := by
        simp [upsert_resource, hget, hdt]
      rw [h1]
      exact hwr _ (Table.get_put_self R _ _)
    | some stored =>
      by_cases hlt : stored < t
      · rw [upsert_resource_of_older R a s arn cfg t item stored hget hdt hlt]
        exact hwr _ (Table.get_put_self R _ _)
      · rw [upsert_resource_of_stale R a s arn cfg t item stored hget hdt (not_lt.mp hlt)]
        exact upsert_resource_of_stale R a s arn cfg t item stored hget hdt (not_lt.mp hlt)

theorem put_finding_of_absent (F : FindingsTable E) (arn pid acct : String) (sev : Int)
    (st : String) (ev : E) (t : Int) (fs : Option Int)
    (h : F.get ⟨arn, pid⟩ = none) :
    put_finding F arn pid acct sev st ev t fs =
      F.put ⟨arn, pid⟩ (put_finding_created acct sev st ev t (fs.getD t)) := by
  simp [put_finding, h]

theorem put_finding_of_older (F : FindingsTable E) (arn pid acct : String) (sev : Int)
    (st : String) (ev : E) (t : Int) (fs : Option Int) (item : FindingItem E) (stored : Int)
    (h : F.get ⟨arn, pid⟩ = some item) (hdt : item.describeTime = some stored)
    (hlt : stored < t) :
    put_finding F arn pid acct sev st ev t fs =
      F.put ⟨arn, pid⟩ (put_finding_updated item acct sev st ev t (fs.getD t)) := by
  simp [put_finding, h, hdt, hlt]

theorem put_finding_of_stale (F : FindingsTable E) (arn pid acct : String) (sev : Int)
    (st : String) (ev : E) (t : Int) (fs : Option Int) (item : FindingItem E) (stored : Int)
    (h : F.get ⟨arn, pid⟩ = some item) (hdt : item.describeTime = some stored)
    (hle : t ≤ stored) :
    put_finding F arn pid acct sev st ev t fs = F := by
  simp [put_finding, h, hdt, not_lt.mpr hle]

theorem put_finding_idem (F : FindingsTable E) (arn pid acct : String) (sev : Int)
    (st : String) (ev : E) (t : Int) (fs : Option Int) :
    put_finding (put_finding F arn pid acct sev st ev t fs) arn pid acct sev st ev t fs =
      put_finding F arn pid acct sev st ev t fs := by
  have hwr : ∀ (F' : FindingsTable E) (item : FindingItem E),
      F'.get ⟨arn, pid⟩ = some item → item.describeTime = some t →
      put_finding F' arn pid acct sev st ev t fs = F' := by
    intro F' item h hdt
    simp [put_finding, h, hdt]
  cases hget : F.get ⟨arn, pid⟩ with
  | none =>
    rw [put_finding_of_absent F arn pid acct sev st ev t fs hget]
    exact hwr _ _ (Table.get_put_self F _ _) rfl
  | some item =>
    cases hdt : item.describeTime with
    | none =>
      have h1 : put_finding F arn pid acct sev st ev t fs =
          F.put ⟨arn, pid⟩ (put_finding_updated item acct sev st ev t (fs.getD t)) := by
        simp [put_finding, hget, hdt]
      rw [h1]
      exact hwr _ _ (Table.get_put_self F _ _) rfl
    | some stored =>
      by_cases hlt : stored < t
      · rw [put_finding_of_older F arn pid acct sev st ev t fs item stored hget hdt hlt]
        exact hwr _ _ (Table.get_put_self F _ _) rfl
      · rw [put_finding_of_stale F arn pid acct sev st ev t fs item stored hget hdt
          (not_lt.mp hlt)]
        exact put_finding_of_stale F arn pid acct sev st ev t fs item stored hget hdt
          (not_lt.mp hlt)

end CasLemmas

/-! ## C1: the CAS upsert protocol -/

/-- C1: for both the Resource Store (`upsert_resource`) and the Findings
Store (`put_finding`), a write with observed time `t` applies when no record
exists or the stored observed time is strictly below `t`, and in the
remaining case (stored observed time at least `t`) it leaves the whole table
unchanged; both operations are total functions (the conditional-check
failure is swallowed, never surfaced), and applying the identical upsert
twice equals applying it once. -/
theorem cas_upsert_protocol {C E : Type} (R : ResourceTable C) (F : FindingsTable E)
    (account_id service arn policy_id account_service state : String) (cfg : C)
    (severity : Int) (evidence : E) (t : Int) (first_seen_ms : Option Int) :
    ((R.get ⟨account_id ++ "_" ++ service, arn⟩ = none →
        upsert_resource R account_id service arn cfg t =
          R.put ⟨account_id ++ "_" ++ service, arn⟩ ⟨cfg, some t, some t⟩) ∧
      (∀ (item : ResourceItem C) (stored : Int),
        R.get ⟨account_id ++ "_" ++ service, arn⟩ = some item →
        item.describeTime = some stored →
        (stored < t →
          upsert_resource R account_id service arn cfg t =
            R.put ⟨account_id ++ "_" ++ service, arn⟩ ⟨cfg, some t, some t⟩) ∧
        (t ≤ stored → upsert_resource R account_id service arn cfg t = R)) ∧
      upsert_resource (upsert_resource R account_id service arn cfg t)
          account_id service arn cfg t =
        upsert_resource R account_id service arn cfg t) ∧
    ((F.get ⟨arn, policy_id⟩ = none →
        put_finding F arn policy_id account_service severity state evidence t first_seen_ms =
          F.put ⟨arn, policy_id⟩
            (put_finding_created account_service severity state evidence t
              (first_seen_ms.getD t))) ∧
      (∀ (item : FindingItem E) (stored : Int),
        F.get ⟨arn, policy_id⟩ = some item →
        item.describeTime = some stored →
        (stored < t →
          put_finding F arn policy_id account_service severity state evidence t
              first_seen_ms =
            F.put ⟨arn, policy_id⟩
              (put_finding_updated item account_service severity state evidence t
                (first_seen_ms.getD t))) ∧
        (t ≤ stored →
          put_finding F arn policy_id account_service severity state evidence t
              first_seen_ms = F)) ∧
      put_finding
          (put_finding F arn policy_id account_service severity state evidence t
            first_seen_ms)
          arn policy_id account_service severity state evidence t first_seen_ms =
        put_finding F arn policy_id account_service severity state evidence t
          first_seen_ms) := by
  refine ⟨⟨fun h => upsert_resource_of_absent R _ _ _ _ _ h, fun item stored h hdt => ⟨?_, ?_⟩,
      upsert_resource_idem R _ _ _ _ _⟩,
    ⟨fun h => put_finding_of_absent F _ _ _ _ _ _ _ _ h, fun item stored h hdt => ⟨?_, ?_⟩,
      put_finding_idem F _ _ _ _ _ _ _ _⟩⟩
  · exact fun hlt => upsert_resource_of_older R _ _ _ _ _ item stored h hdt hlt
  · exact fun hle => upsert_resource_of_stale R _ _ _ _ _ item stored h hdt hle
  · exact fun hlt => put_finding_of_older F _ _ _ _ _ _ _ _ item stored h hdt hlt
  · exact fun hle => put_finding_of_stale F _ _ _ _ _ _ _ _ item stored h hdt hle

/-- Witness for C1: on a store holding the resource at observed time 100, an
upsert at observed time 50 is a silent no-op, via `cas_upsert_protocol`. -/
theorem cas_upsert_protocol_witness :
    upsert_resource
        (Table.put Table.empty ⟨"111" ++ "_" ++ "s3", "arn:aws:s3:::b"⟩
          (⟨true, some 100, some 100⟩ : ResourceItem Bool))
        "111" "s3" "arn:aws:s3:::b" false 50 =
      Table.put Table.empty ⟨"111" ++ "_" ++ "s3", "arn:aws:s3:::b"⟩
        (⟨true, some 100, some 100⟩ : ResourceItem Bool) :=
  ((cas_upsert_protocol
      (Table.put Table.empty ⟨"111" ++ "_" ++ "s3", "arn:aws:s3:::b"⟩
        (⟨true, some 100, some 100⟩ : ResourceItem Bool))
      (Table.empty : FindingsTable Bool) "111" "s3" "arn:aws:s3:::b" "P" "111_s3" "ACTIVE"
      false 90 true 50 none).1.2.1 ⟨true, some 100, some 100⟩ 100 (by decide) rfl).2
    (by decide)

/-! ## C2: ordering of two writes -/

/-- C2 counterexample: on an initially empty Findings Store, two
`put_finding` writes with observed times 1 < 2 (neither supplying
`first_seen_ms`) do *not* yield the same final stored record in the two
orders: `FirstSeen` is `if_not_exists`, so it keeps the first applied
write's value (1 in one order, 2 in the other). -/
theorem upsert_ordering_counterexample :
    (put_finding
        (put_finding (Table.empty : FindingsTable Bool) "arn:aws:s3:::b" "P" "111_s3" 90
          "ACTIVE" true 1 none)
        "arn:aws:s3:::b" "P" "111_s3" 90 "ACTIVE" true 2 none).get ⟨"arn:aws:s3:::b", "P"⟩ ≠
      (put_finding
          (put_finding (Table.empty : FindingsTable Bool) "arn:aws:s3:::b" "P" "111_s3" 90
            "ACTIVE" true 2 none)
          "arn:aws:s3:::b" "P" "111_s3" 90 "ACTIVE" true 1 none).get
        ⟨"arn:aws:s3:::b", "P"⟩ := by
  decide

/-- C2 as amended: with `t1 < t2` and an initial record absent or older than
`t1`, the Resource Store claim holds as stated (the two orders produce the
same table, whose record is W2's payload at `t2`).  For the Findings Store
both orders end with W2's payload at observed time `t2` in every attribute
except `first_seen` (and the untouched `resolved_reason`): `first_seen` is
the pre-existing record's `first_seen` when present, and otherwise the
*first applied* write's `first_seen` value, so the two orders coincide
exactly when a `first_seen` already existed or both writes carry the same
`first_seen`. -/
theorem upsert_ordering_amended {C E : Type} (R : ResourceTable C) (F : FindingsTable E)
    (account_id service arn policy_id acct1 acct2 st1 st2 : String) (cfg1 cfg2 : C)
    (sev1 sev2 : Int) (ev1 ev2 : E) (t1 t2 : Int) (fs1 fs2 : Option Int)
    (hlt : t1 < t2)
    (hR : R.get ⟨account_id ++ "_" ++ service, arn⟩ = none ∨
      ∃ item stored, R.get ⟨account_id ++ "_" ++ service, arn⟩ = some item ∧
        item.describeTime = some stored ∧ stored < t1)
    (hF : F.get ⟨arn, policy_id⟩ = none ∨
      ∃ item stored, F.get ⟨arn, policy_id⟩ = some item ∧
        item.describeTime = some stored ∧ stored < t1) :
    (upsert_resource (upsert_resource R account_id service arn cfg1 t1)
        account_id service arn cfg2 t2 =
      upsert_resource (upsert_resource R account_id service arn cfg2 t2)
        account_id service arn cfg1 t1) ∧
    ((upsert_resource (upsert_resource R account_id service arn cfg1 t1)
        account_id service arn cfg2 t2).get ⟨account_id ++ "_" ++ service, arn⟩ =
      some ⟨cfg2, some t2, some t2⟩) ∧
    ((put_finding (put_finding F arn policy_id acct1 sev1 st1 ev1 t1 fs1)
        arn policy_id acct2 sev2 st2 ev2 t2 fs2).get ⟨arn, policy_id⟩ =
      some ⟨st2, some sev2, some t2, some (.ms t2), some ev2, some acct2,
        some (((F.get ⟨arn, policy_id⟩).bind FindingItem.firstSeen).getD (fs1.getD t1)),
        (F.get ⟨arn, policy_id⟩).bind FindingItem.resolvedReason⟩) ∧
    ((put_finding (put_finding F arn policy_id acct2 sev2 st2 ev2 t2 fs2)
        arn policy_id acct1 sev1 st1 ev1 t1 fs1).get ⟨arn, policy_id⟩ =
      some ⟨st2, some sev2, some t2, some (.ms t2), some ev2, some acct2,
        some (((F.get ⟨arn, policy_id⟩).bind FindingItem.firstSeen).getD (fs2.getD t2)),
        (F.get ⟨arn, policy_id⟩).bind FindingItem.resolvedReason⟩) := by
  have h1 : upsert_resource R account_id service arn cfg1 t1 =
      R.put ⟨account_id ++ "_" ++ service, arn⟩ ⟨cfg1, some t1, some t1⟩ := by
    rcases hR with h | ⟨item, stored, hg, hdt, hst⟩
    · exact upsert_resource_of_absent R _ _ _ _ _ h
    · exact upsert_resource_of_older R _ _ _ _ _ item stored hg hdt hst
  have h2 : upsert_resource R account_id service arn cfg2 t2 =
      R.put ⟨account_id ++ "_" ++ service, arn⟩ ⟨cfg2, some t2, some t2⟩ := by
    rcases hR with h | ⟨item, stored, hg, hdt, hst⟩
    · exact upsert_resource_of_absent R _ _ _ _ _ h
    · exact upsert_resource_of_older R _ _ _ _ _ item stored hg hdt (hst.trans hlt)
  have h12 : upsert_resource (upsert_resource R account_id service arn cfg1 t1)
      account_id service arn cfg2 t2 =
      R.put ⟨account_id ++ "_" ++ service, arn⟩ ⟨cfg2, some t2, some t2⟩ := by
    rw [h1,
      upsert_resource_of_older _ _ _ _ _ _ ⟨cfg1, some t1, some t1⟩ t1
        (Table.get_put_self R _ _) rfl hlt,
      Table.put_put_self]
  have h21 : upsert_resource (upsert_resource R account_id service arn cfg2 t2)
      account_id service arn cfg1 t1 =
      R.put ⟨account_id ++ "_" ++ service, arn⟩ ⟨cfg2, some t2, some t2⟩ := by
    rw [h2]
    exact upsert_resource_of_stale _ _ _ _ _ _ ⟨cfg2, some t2, some t2⟩ t2
      (Table.get_put_self R _ _) rfl hlt.le
  refine ⟨h12.trans h21.symm, by rw [h12]; exact Table.get_put_self R _ _, ?_, ?_⟩
  · rcases hF with h | ⟨item, stored, hg, hdt, hst⟩
    · rw [put_finding_of_absent F _ _ _ _ _ _ _ _ h,
        put_finding_of_older _ _ _ _ _ _ _ _ _ _ t1 (Table.get_put_self F _ _) rfl hlt,
        Table.put_put_self, Table.get_put_self, h]
      simp [put_finding_created, put_finding_updated]
    · rw [put_finding_of_older F _ _ _ _ _ _ _ _ item stored hg hdt hst,
        put_finding_of_older _ _ _ _ _ _ _ _ _ _ t1 (Table.get_put_self F _ _) rfl hlt,
        Table.put_put_self, Table.get_put_self, hg]
      simp only [put_finding_updated, Option.bind_some]
      rcases hfs : item.firstSeen with _ | f <;> simp [hfs]
  · rcases hF with h | ⟨item, stored, hg, hdt, hst⟩
    · rw [put_finding_of_absent F _ _ _ _ _ _ _ _ h,
        put_finding_of_stale _ _ _ _ _ _ _ _ _
          (put_finding_created acct2 sev2 st2 ev2 t2 (fs2.getD t2)) t2
          (Table.get_put_self F _ _) rfl hlt.le,
        Table.get_put_self, h]
      simp [put_finding_created]
    · rw [put_finding_of_older F _ _ _ _ _ _ _ _ item stored hg hdt (hst.trans hlt),
        put_finding_of_stale _ _ _ _ _ _ _ _ _
          (put_finding_updated item acct2 sev2 st2 ev2 t2 (fs2.getD t2)) t2
          (Table.get_put_self F _ _) rfl hlt.le,
        Table.get_put_self, hg]
      simp only [put_finding_updated, Option.bind_some]
      rcases hfs : item.firstSeen with _ | f <;> simp [hfs]

/-- Witness for C2's amended theorem: writes at times 1 then 2 on the empty
stores, checked at the record level. -/
theorem upsert_ordering_amended_witness :
    (upsert_resource
        (upsert_resource (Table.empty : ResourceTable Bool) "111" "s3" "arn:aws:s3:::b"
          true 1)
        "111" "s3" "arn:aws:s3:::b" false 2).get ⟨"111" ++ "_" ++ "s3", "arn:aws:s3:::b"⟩ =
      some ⟨false, some 2, some 2⟩ :=
  (upsert_ordering_amended (Table.empty : ResourceTable Bool)
      (Table.empty : FindingsTable Bool) "111" "s3" "arn:aws:s3:::b" "P" "111_s3" "111_s3"
      "ACTIVE" "ACTIVE" true false 90 90 true false 1 2 none none (by decide)
      (Or.inl (by decide)) (Or.inl (by decide))).2.1

/-! ## C3: first_seen immutability -/

/-- Arguments of one `put_finding` call, for reasoning about sequences of
accepted or rejected updates. -/
structure PutOp (E : Type) where
  arn : String
  policy : String
  accountService : String
  severity : Int
  state : String
  evidence : E
  describeTimeMs : Int
  firstSeenMs : Option Int

/-- Apply a sequence of `put_finding` calls in order. -/
def apply_puts {E : Type} (F : FindingsTable E) (ops : List (PutOp E)) : FindingsTable E :=
  ops.foldl
    (fun t op =>
      put_finding t op.arn op.policy op.accountService op.severity op.state op.evidence
        op.describeTimeMs op.firstSeenMs)
    F

theorem put_finding_get_ne {E : Type} (F : FindingsTable E) (arn pid acct : String)
    (sev : Int) (st : String) (ev : E) (t : Int) (fs : Option Int) (k : FindingKey)
    (hk : k ≠ ⟨arn, pid⟩) :
    (put_finding F arn pid acct sev st ev t fs).get k = F.get k := by
  cases hg : F.get ⟨arn, pid⟩ with
  | none =>
    rw [put_finding_of_absent F _ _ _ _ _ _ _ _ hg]
    exact Table.get_put_ne F _ _ _ hk
  | some item =>
    cases hdt : item.describeTime with
    | none =>
      have h1 : put_finding F arn pid acct sev st ev t fs =
          F.put ⟨arn, pid⟩ (put_finding_updated item acct sev st ev t (fs.getD t)) := by
        simp [put_finding, hg, hdt]
      rw [h1]
      exact Table.get_put_ne F _ _ _ hk
    | some stored =>
      by_cases hlt : stored < t
      · rw [put_finding_of_older F _ _ _ _ _ _ _ _ item stored hg hdt hlt]
        exact Table.get_put_ne F _ _ _ hk
      · rw [put_finding_of_stale F _ _ _ _ _ _ _ _ item stored hg hdt (not_lt.mp hlt)]

theorem put_finding_preserves_firstSeen {E : Type} (F : FindingsTable E)
    (arn pid acct : String) (sev : Int) (st : String) (ev : E) (t : Int) (fs : Option Int)
    (k : FindingKey) (item : FindingItem E) (f : Int) (hget : F.get k = some item)
    (hfs : item.firstSeen = some f) :
    ∃ j, (put_finding F arn pid acct sev st ev t fs).get k = some j ∧
      j.firstSeen = some f := by
  by_cases hk : k = (⟨arn, pid⟩ : FindingKey)
  · subst hk
    cases hdt : item.describeTime with
    | none =>
      refine ⟨put_finding_updated item acct sev st ev t (fs.getD t), ?_, ?_⟩
      · have h1 : put_finding F arn pid acct sev st ev t fs =
            F.put ⟨arn, pid⟩ (put_finding_updated item acct sev st ev t (fs.getD t)) := by
          simp [put_finding, hget, hdt]
        rw [h1]
        exact Table.get_put_self F _ _
      · simp [put_finding_updated, hfs]
    | some stored =>
      by_cases hlt : stored < t
      · refine ⟨put_finding_updated item acct sev st ev t (fs.getD t), ?_, ?_⟩
        · rw [put_finding_of_older F _ _ _ _ _ _ _ _ item stored hget hdt hlt]
          exact Table.get_put_self F _ _
        · simp [put_finding_updated, hfs]
      · refine ⟨item, ?_, hfs⟩
        rw [put_finding_of_stale F _ _ _ _ _ _ _ _ item stored hget hdt (not_lt.mp hlt)]
        exact hget
  · exact ⟨item, by rw [put_finding_get_ne F _ _ _ _ _ _ _ _ k hk]; exact hget, hfs⟩

theorem apply_puts_preserves_firstSeen {E : Type} (ops : List (PutOp E)) :
    ∀ (F : FindingsTable E) (k : FindingKey) (item : FindingItem E) (f : Int),
      F.get k = some item → item.firstSeen = some f →
      ∃ j, (apply_puts F ops).get k = some j ∧ j.firstSeen = some f := by
  induction ops with
  | nil => exact fun F k item f hget hfs => ⟨item, hget, hfs⟩
  | cons op rest ih =>
    intro F k item f hget hfs
    obtain ⟨j, hj, hjf⟩ := put_finding_preserves_firstSeen F op.arn op.policy
      op.accountService op.severity op.state op.evidence op.describeTimeMs op.firstSeenMs
      k item f hget hfs
    exact ih _ k j f hj hjf

/-- C3: a `first_seen` present on the stored finding survives any sequence
of `put_finding` calls (accepted or not, for any keys and any
`first_seen_ms` arguments they carry), and on creation with no
`first_seen_ms` supplied it defaults to the write's observed time. -/
theorem first_seen_immutable {E : Type} (F : FindingsTable E) (k : FindingKey) :
    (∀ (acct : String) (sev : Int) (st : String) (ev : E) (t : Int),
      F.get k = none →
      (put_finding F k.arn k.policy acct sev st ev t none).get k =
        some (put_finding_created acct sev st ev t t)) ∧
    (∀ (item : FindingItem E) (f : Int), F.get k = some item → item.firstSeen = some f →
      ∀ ops : List (PutOp E),
        ∃ j, (apply_puts F ops).get k = some j ∧ j.firstSeen = some f) := by
  constructor
  · intro acct sev st ev t h
    rw [put_finding_of_absent F _ _ _ _ _ _ _ _ h]
    exact Table.get_put_self F _ _
  · exact fun item f hget hfs ops => apply_puts_preserves_firstSeen ops F k item f hget hfs

/-- Witness for C3: a finding created at observed time 5 keeps
`first_seen = 5` across a later accepted update at observed time 9. -/
theorem first_seen_immutable_witness :
    ∃ j, (apply_puts
        (Table.put (Table.empty : FindingsTable Bool) ⟨"arn:aws:s3:::b", "P"⟩
          (put_finding_created "111_s3" 90 "ACTIVE" true 5 5))
        [⟨"arn:aws:s3:::b", "P", "111_s3", 90, "ACTIVE", false, 9, none⟩]).get
      ⟨"arn:aws:s3:::b", "P"⟩ = some j ∧ j.firstSeen = some 5 :=
  (first_seen_immutable
      (Table.put (Table.empty : FindingsTable Bool) ⟨"arn:aws:s3:::b", "P"⟩
        (put_finding_created "111_s3" 90 "ACTIVE" true 5 5))
      ⟨"arn:aws:s3:::b", "P"⟩).2
    (put_finding_created "111_s3" 90 "ACTIVE" true 5 5) 5 (by decide) rfl
    [⟨"arn:aws:s3:::b", "P", "111_s3", 90, "ACTIVE", false, 9, none⟩]

/-! ## C10: the bulk write path bypasses the CAS protocol -/

/-- The last item supplied for key `k` in a bulk-write list, if any
(later `put_item` calls overwrite earlier ones). -/
def last_put {C : Type} : List (ResourceKey × ResourceItem C) → ResourceKey →
    Option (ResourceItem C)
  | [], _ => none
  | kv :: rest, k =>
    match last_put rest k with
    | some v => some v
    | none => if kv.1 = k then some kv.2 else none

theorem bulk_upsert_get {C : Type} (rs : List (ResourceKey × ResourceItem C)) :
    ∀ (t : ResourceTable C) (k : ResourceKey),
      (bulk_upsert_resources t rs).get k =
        match last_put rs k with
        | some v => some v
        | none => t.get k := by
  induction rs with
  | nil => intro t k; rfl
  | cons kv rest ih =>
    intro t k
    show (bulk_upsert_resources (t.put kv.1 kv.2) rest).get k = _
    rw [ih]
    cases hl : last_put rest k with
    | some v => simp [last_put, hl]
    | none =>
      by_cases hk : kv.1 = k
      · subst hk; simp [last_put, hl, Table.get_put_self]
      · simp [last_put, hl, hk, Table.get_put_ne t _ _ _ (Ne.symm hk)]

/-- C10: `bulk_upsert_resources` writes every supplied item unconditionally
(the stored record becomes the last supplied item for its key, with no
freshness condition), so it can regress a record carrying a strictly newer
observed time — the very write that `upsert_resource` refuses as stale. -/
theorem bulk_upsert_bypasses_cas {C : Type} :
    (∀ (t : ResourceTable C) (rs : List (ResourceKey × ResourceItem C))
      (k : ResourceKey) (v : ResourceItem C),
      last_put rs k = some v → (bulk_upsert_resources t rs).get k = some v) ∧
    (∀ (t : ResourceTable C) (account_id service arn : String) (cfg : C)
      (tNew : Int) (old new : ResourceItem C) (tOld : Int),
      t.get ⟨account_id ++ "_" ++ service, arn⟩ = some old →
      old.describeTime = some tOld → tNew < tOld →
      (bulk_upsert_resources t
          [(⟨account_id ++ "_" ++ service, arn⟩, new)]).get
        ⟨account_id ++ "_" ++ service, arn⟩ = some new ∧
      upsert_resource t account_id service arn cfg tNew = t) := by
  constructor
  · intro t rs k v h
    rw [bulk_upsert_get rs t k, h]
  · intro t account_id service arn cfg tNew old new tOld hget hdt hlt
    constructor
    · rw [bulk_upsert_get _ t _]
      simp [last_put]
    · exact upsert_resource_of_stale t _ _ _ _ _ old tOld hget hdt hlt.le

/-- Witness for C10: a bulk item at observed time 50 overwrites a stored
record at observed time 100, while the corresponding `upsert_resource` at
time 50 is a no-op. -/
theorem bulk_upsert_bypasses_cas_witness :
    (bulk_upsert_resources
        (Table.put (Table.empty : ResourceTable Bool) ⟨"111" ++ "_" ++ "s3", "arn:aws:s3:::b"⟩
          ⟨true, some 100, some 100⟩)
        [(⟨"111" ++ "_" ++ "s3", "arn:aws:s3:::b"⟩, ⟨false, some 50, some 50⟩)]).get
      ⟨"111" ++ "_" ++ "s3", "arn:aws:s3:::b"⟩ = some ⟨false, some 50, some 50⟩ ∧
    upsert_resource
        (Table.put (Table.empty : ResourceTable Bool) ⟨"111" ++ "_" ++ "s3", "arn:aws:s3:::b"⟩
          ⟨true, some 100, some 100⟩)
        "111" "s3" "arn:aws:s3:::b" false 50 =
      Table.put (Table.empty : ResourceTable Bool) ⟨"111" ++ "_" ++ "s3", "arn:aws:s3:::b"⟩
        ⟨true, some 100, some 100⟩ :=
  bulk_upsert_bypasses_cas.2
    (Table.put (Table.empty : ResourceTable Bool) ⟨"111" ++ "_" ++ "s3", "arn:aws:s3:::b"⟩
      ⟨true, some 100, some 100⟩)
    "111" "s3" "arn:aws:s3:::b" false 50 ⟨true, some 100, some 100⟩
    ⟨false, some 50, some 50⟩ 100 (by decide) rfl (by decide)

/-! ## Evaluator runtime (`policy_definition.py`, `policies/s3_bucket_public.py`) -/

/-- The dict returned by `PolicyEvaluator.evaluate`.  The out-of-scope
result's empty evidence dict is modelled as `none`; the Python key
`scoped` is spelt `scoped_` because `scoped` is reserved in Lean. -/
structure EvalResult (E : Type) where
  scoped_ : Bool
  compliant : Bool
  message : String
  evidence : Option E
  findingId : Option String
deriving DecidableEq

/-- `PolicyEvaluator._persist_finding`: close the finding when compliant
(returning `None`), otherwise create/update an `ACTIVE` finding via the CAS
upsert (returning the finding identifier `arn#policy_id`). -/
def persist_finding {E : Type} (policy_id : String) (severity : Int)
    (F : FindingsTable E) (resource_arn account_service : String) (compliant : Bool)
    (evidence : E) (describe_time_ms : Int) (now_iso : String) :
    Option String × FindingsTable E :=
  if compliant then
    (none, close_finding F resource_arn policy_id now_iso)
  else
    (some (resource_arn ++ "#" ++ policy_id),
      put_finding F resource_arn policy_id account_service severity "ACTIVE" evidence
        describe_time_ms none)

/-- The account id used by an evaluator: `get_account_from_arn`, with the
`ValueError` fallback to `"unknown"`. -/
def arn_account_or_unknown (arn : String) : String :=
  match get_account_from_arn arn with
  | .ok a => a
  | .error _ => "unknown"

/-- An evaluator instance as built by
`PolicyManager.create_policy_evaluator`: the policy id, the effective
severity, the launched scope, the policy's service, and the policy-specific
predicate (compliant?, evidence, message). -/
structure EvaluatorInst (C E : Type) where
  policy_id : String
  severity : Int
  scope : ScopeConfig
  service : String
  check : String → C → Bool × E × String

/-- The evaluator body shared by every policy module (the shape of
`S3BucketPublicEvaluator.evaluate` and its siblings): extract the account
from the ARN, apply the Scope Resolver and return the fixed out-of-scope
result with no store access if it fails, otherwise run the policy predicate
and persist via `_persist_finding`. -/
def evaluate_template {C E : Type} (inst : EvaluatorInst C E)
    (account_tags : String → String → Option String)
    (account_ou : String → Option String) (F : FindingsTable E) (resource_arn : String)
    (config : C) (describe_time_ms : Int) (now_iso : String) :
    EvalResult E × FindingsTable E :=
  let account_id := arn_account_or_unknown resource_arn
  if !(should_evaluate_resource account_id resource_arn inst.scope
      (account_tags account_id) (account_ou account_id)) then
    (⟨false, true, "Resource excluded by scope", none, none⟩, F)
  else
    let checked := inst.check resource_arn config
    let account_service := account_id ++ "_" ++ inst.service
    let persisted := persist_finding inst.policy_id inst.severity F resource_arn
      account_service checked.1 checked.2.1 describe_time_ms now_iso
    (⟨true, checked.1, checked.2.2, some checked.2.1, persisted.1⟩, persisted.2)

/-! ### The S3 public-bucket policy (`policies/s3_bucket_public.py`) -/

/-- `PublicAccessBlockConfiguration` as a dict whose four flags may be
absent (each read with `.get(..., False)`). -/
structure PublicAccessBlockConfiguration where
  blockPublicAcls : Option Bool := none
  ignorePublicAcls : Option Bool := none
  blockPublicPolicy : Option Bool := none
  restrictPublicBuckets : Option Bool := none
deriving DecidableEq

/-- The slice of an S3 bucket configuration dict read by the policy. -/
structure S3Config where
  name : Option String := none
  publicAccessBlockConfiguration : Option PublicAccessBlockConfiguration := none
deriving DecidableEq

/-- The evidence dict built by the S3 public-bucket policy. -/
structure S3Evidence where
  bucket_name : String
  public_access_block_configuration : PublicAccessBlockConfiguration
  block_public_acls : Bool
  ignore_public_acls : Bool
  block_public_policy : Bool
  restrict_public_buckets : Bool
deriving DecidableEq

/-- Split a character list at every occurrence of `:::`
(Python `arn.split(':::')`). -/
def splitTriColon : List Char → List (List Char)
  | ':' :: ':' :: ':' :: rest => [] :: splitTriColon rest
  | x :: xs =>
    match splitTriColon xs with
    | [] => [[x]]
    | y :: ys => (x :: y) :: ys
  | [] => [[]]

/-- `resource_arn.split(':::')[-1]` (the bucket-name fallback). -/
def bucket_from_arn (arn : String) : String :=
  ((splitTriColon arn.data).map String.mk).getLastD arn

/-- The bucket is public if ANY of the four block-public flags is missing
or false. -/
def s3_is_public (config : S3Config) : Bool :=
  let pab := config.publicAccessBlockConfiguration.getD {}
  !(pab.blockPublicAcls.getD false) || !(pab.ignorePublicAcls.getD false)
    || !(pab.blockPublicPolicy.getD false) || !(pab.restrictPublicBuckets.getD false)

/-- The policy-specific part of `S3BucketPublicEvaluator.evaluate`: bucket
name (config `Name`, falling back to the ARN suffix), publicity check,
evidence, compliance and message. -/
def s3_bucket_public_check (resource_arn : String) (config : S3Config) :
    Bool × S3Evidence × String :=
  let bucket_name := match config.name with
    | some n => if n = "" then bucket_from_arn resource_arn else n
    | none => bucket_from_arn resource_arn
  let pab := config.publicAccessBlockConfiguration.getD {}
  let evidence : S3Evidence :=
    ⟨bucket_name, pab, pab.blockPublicAcls.getD false, pab.ignorePublicAcls.getD false,
      pab.blockPublicPolicy.getD false, pab.restrictPublicBuckets.getD false⟩
  let compliant := !(s3_is_public config)
  (compliant, evidence,
    "Bucket '" ++ bucket_name ++ "' is "
      ++ (if compliant then "private" else "publicly accessible"))

/-- `S3BucketPublicEvaluator.evaluate`, as the shared evaluator body
instantiated with the S3 public-bucket predicate and service `s3`. -/
def s3_bucket_public_evaluate (policy_id : String) (severity : Int) (scope : ScopeConfig)
    (account_tags : String → String → Option String) (account_ou : String → Option String)
    (F : FindingsTable S3Evidence) (resource_arn : String) (config : S3Config)
    (describe_time_ms : Int) (now_iso : String) :
    EvalResult S3Evidence × FindingsTable S3Evidence :=
  evaluate_template ⟨policy_id, severity, scope, "s3", s3_bucket_public_check⟩
    account_tags account_ou F resource_arn config describe_time_ms now_iso

/-! ## C4: out-of-scope evaluation mutates nothing -/

/-- C4: when the Scope Resolver rejects the account extracted from the
resource's ARN (for instance a non-empty `include_accounts` that does not
contain it), `S3BucketPublicEvaluator.evaluate` returns
`scoped = false, compliant = true, finding_id = None` and leaves the
Findings Store untouched — and, having no access to the Resource Store at
all, mutates no store. -/
theorem out_of_scope_no_mutation (policy_id : String) (severity : Int)
    (scope : ScopeConfig) (account_tags : String → String → Option String)
    (account_ou : String → Option String) (F : FindingsTable S3Evidence)
    (resource_arn : String) (config : S3Config) (describe_time_ms : Int)
    (now_iso : String)
    (hscope : should_evaluate_resource (arn_account_or_unknown resource_arn) resource_arn
      scope (account_tags (arn_account_or_unknown resource_arn))
      (account_ou (arn_account_or_unknown resource_arn)) = false) :
    s3_bucket_public_evaluate policy_id severity scope account_tags account_ou F
        resource_arn config describe_time_ms now_iso =
      (⟨false, true, "Resource excluded by scope", none, none⟩, F) := by
  simp [s3_bucket_public_evaluate, evaluate_template, hscope]

/-- Witness for C4: a policy scoped to account "111" evaluating a
non-compliant resource owned by account "222" returns the out-of-scope
result and leaves the (empty) Findings Store empty. -/
theorem out_of_scope_no_mutation_witness :
    s3_bucket_public_evaluate "S3BucketPublic" 90 { include_accounts := ["111"] }
        (fun _ _ => none) (fun _ => none) (Table.empty : FindingsTable S3Evidence)
        "arn:aws:s3:us-east-1:222:b" { name := some "b" } 100 "2025-01-01T00:00:00+00:00" =
      (⟨false, true, "Resource excluded by scope", none, none⟩,
        (Table.empty : FindingsTable S3Evidence)) :=
  out_of_scope_no_mutation "S3BucketPublic" 90 { include_accounts := ["111"] }
    (fun _ _ => none) (fun _ => none) Table.empty "arn:aws:s3:us-east-1:222:b"
    { name := some "b" } 100 "2025-01-01T00:00:00+00:00" (by decide)

/-! ## C5: closing on a compliant evaluation -/

/-- C5 counterexample: with no finding stored for the key, an in-scope
*compliant* evaluation is not a no-op — `close_finding` is an unconditional
`UpdateItem`, so the Findings Store gains a record (state `RESOLVED`,
carrying only the key, the state and `LastEvaluated`). -/
theorem compliant_close_counterexample :
    (s3_bucket_public_evaluate "S3BucketPublic" 90 {} (fun _ _ => none) (fun _ => none)
        (Table.empty : FindingsTable S3Evidence) "arn:aws:s3:::b"
        { name := some "b",
          publicAccessBlockConfiguration :=
            some ⟨some true, some true, some true, some true⟩ }
        100 "2025-01-01T00:00:00+00:00").2.get ⟨"arn:aws:s3:::b", "S3BucketPublic"⟩ =
      some ⟨"RESOLVED", none, none, some (.iso "2025-01-01T00:00:00+00:00"), none, none,
        none, none⟩ := by
  decide

theorem close_finding_get_of_present {E : Type} (F : FindingsTable E)
    (arn pid now_iso : String) (item : FindingItem E)
    (hget : F.get ⟨arn, pid⟩ = some item) :
    (close_finding F arn pid now_iso).get ⟨arn, pid⟩ =
      some { item with state := "RESOLVED", lastEvaluated := some (.iso now_iso) } := by
  simp [close_finding, Table.updateItem, hget, Table.get_put_self]

theorem close_finding_get_of_absent {E : Type} (F : FindingsTable E)
    (arn pid now_iso : String) (hget : F.get ⟨arn, pid⟩ = none) :
    (close_finding F arn pid now_iso).get ⟨arn, pid⟩ =
      some ⟨"RESOLVED", none, none, some (.iso now_iso), none, none, none, none⟩ := by
  simp [close_finding, Table.updateItem, hget, Table.get_put_self]

/-- C5 as amended: an in-scope compliant evaluation closes the
`(resource, policy)` finding *unconditionally* — the stored finding's state
becomes `RESOLVED` and `LastEvaluated` is refreshed regardless of the stored
finding's observed time (no newer-evaluation guard exists), and when no
finding exists the unconditional `UpdateItem` creates a minimal `RESOLVED`
record rather than leaving the store unchanged; the evaluation result is
`scoped = true, compliant = true, finding_id = None`. -/
theorem compliant_close_amended (policy_id : String) (severity : Int)
    (scope : ScopeConfig) (account_tags : String → String → Option String)
    (account_ou : String → Option String) (F : FindingsTable S3Evidence)
    (resource_arn : String) (config : S3Config) (describe_time_ms : Int)
    (now_iso : String)
    (hscope : should_evaluate_resource (arn_account_or_unknown resource_arn) resource_arn
      scope (account_tags (arn_account_or_unknown resource_arn))
      (account_ou (arn_account_or_unknown resource_arn)) = true)
    (hcompl : s3_is_public config = false) :
    ((s3_bucket_public_evaluate policy_id severity scope account_tags account_ou F
        resource_arn config describe_time_ms now_iso).1.scoped_ = true ∧
      (s3_bucket_public_evaluate policy_id severity scope account_tags account_ou F
        resource_arn config describe_time_ms now_iso).1.compliant = true ∧
      (s3_bucket_public_evaluate policy_id severity scope account_tags account_ou F
        resource_arn config describe_time_ms now_iso).1.findingId = none) ∧
    ((s3_bucket_public_evaluate policy_id severity scope account_tags account_ou F
        resource_arn config describe_time_ms now_iso).2 =
      close_finding F resource_arn policy_id now_iso) ∧
    (∀ item : FindingItem S3Evidence, F.get ⟨resource_arn, policy_id⟩ = some item →
      (close_finding F resource_arn policy_id now_iso).get ⟨resource_arn, policy_id⟩ =
        some { item with state := "RESOLVED", lastEvaluated := some (.iso now_iso) }) ∧
    (F.get ⟨resource_arn, policy_id⟩ = none →
      (close_finding F resource_arn policy_id now_iso).get ⟨resource_arn, policy_id⟩ =
        some ⟨"RESOLVED", none, none, some (.iso now_iso), none, none, none, none⟩) := by
  refine ⟨⟨?_, ?_, ?_⟩, ?_,
    fun item h => close_finding_get_of_present F _ _ _ item h,
    fun h => close_finding_get_of_absent F _ _ _ h⟩ <;>
    simp [s3_bucket_public_evaluate, evaluate_template, hscope, s3_bucket_public_check,
      persist_finding, hcompl]

/-- Witness for C5's amended theorem: closing an existing `ACTIVE` finding
on a compliant in-scope evaluation marks it `RESOLVED`. -/
theorem compliant_close_amended_witness :
    (s3_bucket_public_evaluate "S3BucketPublic" 90 {} (fun _ _ => none) (fun _ => none)
        (Table.put (Table.empty : FindingsTable S3Evidence)
          ⟨"arn:aws:s3:::c", "S3BucketPublic"⟩
          (put_finding_created "_s3" 90 "ACTIVE" ⟨"c", {}, false, false, false, false⟩ 50 50))
        "arn:aws:s3:::c"
        { name := some "c",
          publicAccessBlockConfiguration :=
            some ⟨some true, some true, some true, some true⟩ }
        100 "2025-01-01T00:00:00+00:00").2.get ⟨"arn:aws:s3:::c", "S3BucketPublic"⟩ =
      some { put_finding_created "_s3" 90 "ACTIVE"
          (⟨"c", {}, false, false, false, false⟩ : S3Evidence) 50 50 with
        state := "RESOLVED",
        lastEvaluated := some (.iso "2025-01-01T00:00:00+00:00") } := by
  have h := compliant_close_amended "S3BucketPublic" 90 {} (fun _ _ => none)
    (fun _ => none)
    (Table.put (Table.empty : FindingsTable S3Evidence) ⟨"arn:aws:s3:::c", "S3BucketPublic"⟩
      (put_finding_created "_s3" 90 "ACTIVE" ⟨"c", {}, false, false, false, false⟩ 50 50))
    "arn:aws:s3:::c"
    { name := some "c",
      publicAccessBlockConfiguration := some ⟨some true, some true, some true, some true⟩ }
    100 "2025-01-01T00:00:00+00:00" (by decide) (by decide)
  rw [h.2.1]
  exact h.2.2.1 _ (by decide)

/-! ## C6: policy deletion cascades through the findings purge -/

/-- A launched-policy record (`policy_definition.Policy`, the fields the
embedded operations read). -/
structure LaunchedPolicy where
  policy_id : String
  severity : Int
  scope : ScopeConfig
  status : String
deriving DecidableEq

/-- `policies_api.handle_delete_policy`: verify the policy is launched
(`NotFoundError` otherwise), purge its findings, and only then delete the
launched-policy record; if the purge call raises (`purge_succeeds = false`,
e.g. the findings store is unreachable), the error is re-raised *before*
the delete, so the record stays.  The successful response carries the
purged count. -/
def handle_delete_policy {E : Type} (policies : Table String LaunchedPolicy)
    (F : FindingsTable E) (policy_id : String) (now_ms : Int) (purge_succeeds : Bool) :
    Table String LaunchedPolicy × FindingsTable E × Except String Nat :=
  match policies.get policy_id with
  | none => (policies, F, .error "Policy not found or not launched")
  | some _ =>
    if purge_succeeds then
      let purged := purge_findings_for_policy F policy_id now_ms
      (policies.del policy_id, purged.1, .ok purged.2)
    else
      (policies, F, .error "Failed to purge findings")

theorem purge_fold_count {E : Type} (now_ms : Int)
    (l : List (FindingKey × FindingItem E)) :
    ∀ (F0 : FindingsTable E) (n : Nat),
      (l.foldl (purge_step now_ms) (F0, n)).2 = n + l.length := by
  induction l with
  | nil => intro F0 n; simp
  | cons kv rest ih =>
    intro F0 n
    simp only [List.foldl_cons, purge_step]
    rw [ih, List.length_cons]
    omega

theorem purge_resolve_resolve {E : Type} (now_ms : Int) (i : FindingItem E) :
    purge_resolve now_ms (purge_resolve now_ms i) = purge_resolve now_ms i := rfl

theorem purge_resolve_created {E : Type} (now_ms : Int) :
    purge_resolve now_ms (purge_created now_ms) = (purge_created now_ms : FindingItem E) :=
  rfl

theorem purge_fold_get {E : Type} (now_ms : Int)
    (l : List (FindingKey × FindingItem E)) :
    ∀ (F0 : FindingsTable E) (n : Nat) (k : FindingKey),
      (k ∉ l.map Prod.fst →
        (l.foldl (purge_step now_ms) (F0, n)).1.get k = F0.get k) ∧
      (k ∈ l.map Prod.fst →
        (l.foldl (purge_step now_ms) (F0, n)).1.get k =
          some (match F0.get k with
            | some i => purge_resolve now_ms i
            | none => purge_created now_ms)) := by
  induction l with
  | nil =>
    intro F0 n k
    exact ⟨fun _ => rfl, fun h => absurd h (by simp)⟩
  | cons kv rest ih =>
    intro F0 n k
    simp only [List.foldl_cons, purge_step, List.map_cons, List.mem_cons]
    constructor
    · intro hk
      push_neg at hk
      rw [(ih _ _ k).1 hk.2]
      exact Table.updateItem_get_ne F0 _ _ _ _ hk.1
    · intro hk
      by_cases hkr : k ∈ rest.map Prod.fst
      · rw [(ih _ _ k).2 hkr]
        by_cases hk1 : k = kv.1
        · subst hk1
          rw [Table.updateItem_get_self]
          cases h0 : Table.get F0 kv.1 <;>
            simp [h0, purge_resolve_resolve, purge_resolve_created]
        · rw [Table.updateItem_get_ne F0 _ _ _ _ hk1]
      · have hk1 : k = kv.1 := by
          rcases hk with h | h
          · exact h
          · exact absurd h hkr
        subst hk1
        rw [(ih _ _ kv.1).1 hkr, Table.updateItem_get_self]
        cases h0 : Table.get F0 kv.1 <;> simp [h0]

theorem purge_get_of_target {E : Type} (F : FindingsTable E) (policy_id : String)
    (now_ms : Int) (hnd : (F.map Prod.fst).Nodup) (k : FindingKey) (item : FindingItem E)
    (hget : F.get k = some item) (hp : k.policy = policy_id)
    (hs : item.state = "ACTIVE") :
    (purge_findings_for_policy F policy_id now_ms).1.get k =
      some (purge_resolve now_ms item) := by
  have hmem : (k, item) ∈ F.entries := (Table.get_eq_some_iff_mem hnd).mp hget
  have hmf : (k, item) ∈
      F.filter (fun kv => kv.1.policy = policy_id ∧ kv.2.state = "ACTIVE") := by
    refine List.mem_filter.mpr ⟨hmem, ?_⟩
    simp [hp, hs]
  have hk : k ∈ (F.filter
      (fun kv => kv.1.policy = policy_id ∧ kv.2.state = "ACTIVE")).map Prod.fst :=
    List.mem_map_of_mem Prod.fst hmf
  unfold purge_findings_for_policy
  rw [(purge_fold_get now_ms _ F 0 k).2 hk, hget]

theorem purge_get_of_nontarget {E : Type} (F : FindingsTable E) (policy_id : String)
    (now_ms : Int) (hnd : (F.map Prod.fst).Nodup) (k : FindingKey) (item : FindingItem E)
    (hget : F.get k = some item)
    (hnp : ¬(k.policy = policy_id ∧ item.state = "ACTIVE")) :
    (purge_findings_for_policy F policy_id now_ms).1.get k = some item := by
  have hk : k ∉ (F.filter
      (fun kv => kv.1.policy = policy_id ∧ kv.2.state = "ACTIVE")).map Prod.fst := by
    intro hk
    rcases List.mem_map.mp hk with ⟨⟨k2, item2⟩, hm, hfst⟩
    obtain rfl : k2 = k := hfst
    have hm2 := List.mem_filter.mp hm
    have : item2 = item := by
      have := (Table.get_eq_some_iff_mem hnd).mpr hm2.1
      rw [hget] at this
      exact (Option.some_inj.mp this).symm
    subst this
    exact hnp (by simpa using hm2.2)
  unfold purge_findings_for_policy
  rw [(purge_fold_get now_ms _ F 0 k).1 hk]
  exact hget

/-- C6: deleting a launched policy first bulk-resolves the policy's
findings — every stored `ACTIVE` finding of that policy becomes `RESOLVED`
with `ResolvedReason = POLICY_SUSPENDED`, every other finding (including
already-resolved ones) is kept unchanged, nothing is hard-deleted, and the
success response carries the count of resolved findings — and only then
removes the `LaunchedPolicy` record; when the purge fails, the record is
*not* removed and the failure is reported. -/
theorem delete_policy_cascade {E : Type} (policies : Table String LaunchedPolicy)
    (F : FindingsTable E) (policy_id : String) (now_ms : Int) (lp : LaunchedPolicy)
    (hlp : policies.get policy_id = some lp) (hnd : (F.map Prod.fst).Nodup) :
    (handle_delete_policy policies F policy_id now_ms true =
      (policies.del policy_id, (purge_findings_for_policy F policy_id now_ms).1,
        .ok (purge_findings_for_policy F policy_id now_ms).2)) ∧
    (∀ (k : FindingKey) (item : FindingItem E), F.get k = some item →
      k.policy = policy_id → item.state = "ACTIVE" →
      (purge_findings_for_policy F policy_id now_ms).1.get k =
        some (purge_resolve now_ms item)) ∧
    (∀ (k : FindingKey) (item : FindingItem E), F.get k = some item →
      ¬(k.policy = policy_id ∧ item.state = "ACTIVE") →
      (purge_findings_for_policy F policy_id now_ms).1.get k = some item) ∧
    ((purge_findings_for_policy F policy_id now_ms).2 =
      (F.filter (fun kv => kv.1.policy = policy_id ∧ kv.2.state = "ACTIVE")).length) ∧
    (handle_delete_policy policies F policy_id now_ms false =
      (policies, F, .error "Failed to purge findings")) := by
  refine ⟨by simp [handle_delete_policy, hlp],
    fun k item hget hp hs => purge_get_of_target F policy_id now_ms hnd k item hget hp hs,
    fun k item hget hnp => purge_get_of_nontarget F policy_id now_ms hnd k item hget hnp,
    ?_, by simp [handle_delete_policy, hlp]⟩
  unfold purge_findings_for_policy
  rw [purge_fold_count]
  exact Nat.zero_add _

/-- Witness for C6: with one launched policy "P" and one ACTIVE finding, a
failing purge leaves the policy record in place, and a successful delete
resolves the finding with the reason tag. -/
theorem delete_policy_cascade_witness :
    (handle_delete_policy
        (Table.put (Table.empty : Table String LaunchedPolicy) "P" ⟨"P", 90, {}, "active"⟩)
        (Table.put (Table.empty : FindingsTable Bool) ⟨"arn:aws:s3:::b", "P"⟩
          (put_finding_created "111_s3" 90 "ACTIVE" true 5 5))
        "P" 77 false =
      (Table.put (Table.empty : Table String LaunchedPolicy) "P" ⟨"P", 90, {}, "active"⟩,
        Table.put (Table.empty : FindingsTable Bool) ⟨"arn:aws:s3:::b", "P"⟩
          (put_finding_created "111_s3" 90 "ACTIVE" true 5 5),
        .error "Failed to purge findings")) ∧
    ((purge_findings_for_policy
        (Table.put (Table.empty : FindingsTable Bool) ⟨"arn:aws:s3:::b", "P"⟩
          (put_finding_created "111_s3" 90 "ACTIVE" true 5 5)) "P" 77).1.get
      ⟨"arn:aws:s3:::b", "P"⟩ =
      some (purge_resolve 77 (put_finding_created "111_s3" 90 "ACTIVE" true 5 5))) :=
  ⟨(delete_policy_cascade
      (Table.put (Table.empty : Table String LaunchedPolicy) "P" ⟨"P", 90, {}, "active"⟩)
      (Table.put (Table.empty : FindingsTable Bool) ⟨"arn:aws:s3:::b", "P"⟩
        (put_finding_created "111_s3" 90 "ACTIVE" true 5 5))
      "P" 77 ⟨"P", 90, {}, "active"⟩ (by decide) (by decide)).2.2.2.2,
    (delete_policy_cascade
      (Table.put (Table.empty : Table String LaunchedPolicy) "P" ⟨"P", 90, {}, "active"⟩)
      (Table.put (Table.empty : FindingsTable Bool) ⟨"arn:aws:s3:::b", "P"⟩
        (put_finding_created "111_s3" 90 "ACTIVE" true 5 5))
      "P" 77 ⟨"P", 90, {}, "active"⟩ (by decide) (by decide)).2.1
      ⟨"arn:aws:s3:::b", "P"⟩ (put_finding_created "111_s3" 90 "ACTIVE" true 5 5)
      (by decide) rfl rfl⟩

/-! ## C7: the reconciliation sweep (`scan_processor/scan_handler.py`) -/

/-- The counts returned in the scan response body. -/
structure ScanCounts where
  processed : Nat
  skipped : Nat
  findings_created : Nat
  findings_closed : Nat
deriving DecidableEq

/-- A registry entry for one policy id: its definition's service and default
severity, plus the bound evaluator predicate (the static face of
`get_policy_definition` together with `get_policy_evaluator_class`). -/
structure PolicyDefEntry (C E : Type) where
  service : String
  severity : Int
  check : String → C → Bool × E × String

/-- `PolicyManager.create_policy_evaluator`: resolve the registry entry
(`none` models the `ValueError` raised for an unknown policy or a module
with no evaluator class) and instantiate the evaluator with
`launched_policy.severity or policy_def.severity` (Python `or`: a launched
severity of 0 falls back to the default) and the launched scope. -/
def create_policy_evaluator {C E : Type} (registry : String → Option (PolicyDefEntry C E))
    (policy_id : String) (lp : LaunchedPolicy) : Option (EvaluatorInst C E) :=
  match registry policy_id with
  | none => none
  | some pd =>
    some ⟨policy_id, if lp.severity = 0 then pd.severity else lp.severity, lp.scope,
      pd.service, pd.check⟩

/-- One resource inside the sweep: evaluate with the stored `DescribeTime`
(falling back to the scan start), then count — `findings_closed` for every
in-scope compliant result and `findings_created` for every in-scope
non-compliant result, whether or not the store write was a CAS no-op;
out-of-scope evaluations are not counted. -/
def scan_step_resource {C E : Type} (inst : EvaluatorInst C E)
    (account_tags : String → String → Option String) (account_ou : String → Option String)
    (scan_start_ms : Int) (now_iso : String) (acc : FindingsTable E × ScanCounts)
    (kv : ResourceKey × ResourceItem C) : FindingsTable E × ScanCounts :=
  let t := kv.2.describeTime.getD scan_start_ms
  let evaluated := evaluate_template inst account_tags account_ou acc.1 kv.1.arn
    kv.2.configuration t now_iso
  if evaluated.1.scoped_ then
    if evaluated.1.compliant then
      (evaluated.2, { acc.2 with
        findings_closed := acc.2.findings_closed + 1, processed := acc.2.processed + 1 })
    else
      (evaluated.2, { acc.2 with
        findings_created := acc.2.findings_created + 1, processed := acc.2.processed + 1 })
  else (evaluated.2, acc.2)

/-- One (account, launched policy) pair inside the sweep: build the
evaluator (a failure counts the pair as skipped), query the account's
resources for the policy's service, and evaluate each. -/
def scan_step_policy {C E : Type} (registry : String → Option (PolicyDefEntry C E))
    (R : ResourceTable C) (account_tags : String → String → Option String)
    (account_ou : String → Option String) (scan_start_ms : Int) (now_iso : String)
    (account_id : String) (acc : FindingsTable E × ScanCounts) (lp : LaunchedPolicy) :
    FindingsTable E × ScanCounts :=
  match create_policy_evaluator registry lp.policy_id lp with
  | none => (acc.1, { acc.2 with skipped := acc.2.skipped + 1 })
  | some inst =>
    let resources := R.filter
      (fun kv => kv.1.accountService = account_id ++ "_" ++ inst.service)
    resources.foldl (scan_step_resource inst account_tags account_ou scan_start_ms now_iso)
      acc

/-- One account inside the sweep (a falsy account id is skipped). -/
def scan_step_account {C E : Type} (registry : String → Option (PolicyDefEntry C E))
    (R : ResourceTable C) (pols : List LaunchedPolicy)
    (account_tags : String → String → Option String) (account_ou : String → Option String)
    (scan_start_ms : Int) (now_iso : String) (acc : FindingsTable E × ScanCounts)
    (account_id : String) : FindingsTable E × ScanCounts :=
  if account_id = "" then acc
  else pols.foldl
    (scan_step_policy registry R account_tags account_ou scan_start_ms now_iso account_id)
    acc

/-- The launched-policy list after `scan_policy`'s three filters: optional
policy id, optional service (via the registry), and active status. -/
def scan_active_policies {C E : Type} (registry : String → Option (PolicyDefEntry C E))
    (launched : List LaunchedPolicy) (policy_id_filter service_filter : Option String) :
    List LaunchedPolicy :=
  let pols1 : List LaunchedPolicy := match policy_id_filter with
    | some pid => launched.filter (fun (p : LaunchedPolicy) => p.policy_id = pid)
    | none => launched
  let pols2 : List LaunchedPolicy := match service_filter with
    | some sf => pols1.filter (fun (p : LaunchedPolicy) =>
        match registry p.policy_id with
        | some pd => pd.service = sf
        | none => false)
    | none => pols1
  pols2.filter (fun (p : LaunchedPolicy) => p.status = "active")

/-- `scan_handler.scan_policy`: filter the launched policies, return early
with no counts when none are active, otherwise sweep every
(account, policy, resource) triple, threading the findings table and the
counts; the resources table is only read. -/
def scan_policy {C E : Type} (registry : String → Option (PolicyDefEntry C E))
    (accounts : List String) (launched : List LaunchedPolicy)
    (policy_id_filter service_filter : Option String) (R : ResourceTable C)
    (F : FindingsTable E) (account_tags : String → String → Option String)
    (account_ou : String → Option String) (scan_start_ms : Int) (now_iso : String) :
    FindingsTable E × Option ScanCounts :=
  let pols := scan_active_policies registry launched policy_id_filter service_filter
  if pols.isEmpty then (F, none)
  else
    let r := accounts.foldl
      (scan_step_account registry R pols account_tags account_ou scan_start_ms now_iso)
      (F, ⟨0, 0, 0, 0⟩)
    (r.1, some r.2)

/-! Counts-only projections of the sweep: the returned counts depend only on
the resource table and the policy configuration, never on the findings
table, because an evaluation's result dict is computed before any store
write. -/

def scan_counts_resource_step {C E : Type} (inst : EvaluatorInst C E)
    (account_tags : String → String → Option String) (account_ou : String → Option String)
    (scan_start_ms : Int) (now_iso : String) (c : ScanCounts)
    (kv : ResourceKey × ResourceItem C) : ScanCounts :=
  let t := kv.2.describeTime.getD scan_start_ms
  let res := (evaluate_template inst account_tags account_ou Table.empty kv.1.arn
    kv.2.configuration t now_iso).1
  if res.scoped_ then
    if res.compliant then
      { c with findings_closed := c.findings_closed + 1, processed := c.processed + 1 }
    else
      { c with findings_created := c.findings_created + 1, processed := c.processed + 1 }
  else c

def scan_counts_policy_step {C E : Type} (registry : String → Option (PolicyDefEntry C E))
    (R : ResourceTable C) (account_tags : String → String → Option String)
    (account_ou : String → Option String) (scan_start_ms : Int) (now_iso : String)
    (account_id : String) (c : ScanCounts) (lp : LaunchedPolicy) : ScanCounts :=
  match create_policy_evaluator registry lp.policy_id lp with
  | none => { c with skipped := c.skipped + 1 }
  | some inst =>
    (R.filter (fun kv => kv.1.accountService = account_id ++ "_" ++ inst.service)).foldl
      (scan_counts_resource_step inst account_tags account_ou scan_start_ms now_iso) c

def scan_counts_account_step {C E : Type} (registry : String → Option (PolicyDefEntry C E))
    (R : ResourceTable C) (pols : List LaunchedPolicy)
    (account_tags : String → String → Option String) (account_ou : String → Option String)
    (scan_start_ms : Int) (now_iso : String) (c : ScanCounts) (account_id : String) :
    ScanCounts :=
  if account_id = "" then c
  else pols.foldl
    (scan_counts_policy_step registry R account_tags account_ou scan_start_ms now_iso
      account_id) c

theorem foldl_snd_eq {α β γ : Type} (step : β × γ → α → β × γ) (g : γ → α → γ)
    (h : ∀ (b : β) (c : γ) (a : α), (step (b, c) a).2 = g c a) :
    ∀ (l : List α) (b : β) (c : γ), (l.foldl step (b, c)).2 = l.foldl g c := by
  intro l
  induction l with
  | nil => intro b c; rfl
  | cons a rest ih =>
    intro b c
    simp only [List.foldl_cons]
    rcases hs : step (b, c) a with ⟨b1, c1⟩
    have hc : c1 = g c a := by rw [← h b c a, hs]
    rw [ih b1 c1, hc]

theorem evaluate_template_fst_indep {C E : Type} (inst : EvaluatorInst C E)
    (account_tags : String → String → Option String) (account_ou : String → Option String)
    (F1 F2 : FindingsTable E) (arn : String) (cfg : C) (t : Int) (now_iso : String) :
    (evaluate_template inst account_tags account_ou F1 arn cfg t now_iso).1 =
      (evaluate_template inst account_tags account_ou F2 arn cfg t now_iso).1 := by
  by_cases h : should_evaluate_resource (arn_account_or_unknown arn) arn inst.scope
    (account_tags (arn_account_or_unknown arn)) (account_ou (arn_account_or_unknown arn))
  · rcases hc : inst.check arn cfg with ⟨compliant, ev, msg⟩
    cases compliant <;> simp [evaluate_template, persist_finding, h, hc]
  · simp [evaluate_template, h]

theorem scan_step_resource_snd {C E : Type} (inst : EvaluatorInst C E)
    (account_tags : String → String → Option String) (account_ou : String → Option String)
    (scan_start_ms : Int) (now_iso : String) (F : FindingsTable E) (c : ScanCounts)
    (kv : ResourceKey × ResourceItem C) :
    (scan_step_resource inst account_tags account_ou scan_start_ms now_iso (F, c) kv).2 =
      scan_counts_resource_step inst account_tags account_ou scan_start_ms now_iso c kv := by
  simp only [scan_step_resource, scan_counts_resource_step]
  rw [evaluate_template_fst_indep inst account_tags account_ou F Table.empty kv.1.arn
    kv.2.configuration (kv.2.describeTime.getD scan_start_ms) now_iso]
  cases (evaluate_template inst account_tags account_ou Table.empty kv.1.arn
      kv.2.configuration (kv.2.describeTime.getD scan_start_ms) now_iso).1.scoped_ <;>
    cases (evaluate_template inst account_tags account_ou Table.empty kv.1.arn
      kv.2.configuration (kv.2.describeTime.getD scan_start_ms) now_iso).1.compliant <;>
    simp

theorem scan_step_policy_snd {C E : Type} (registry : String → Option (PolicyDefEntry C E))
    (R : ResourceTable C) (account_tags : String → String → Option String)
    (account_ou : String → Option String) (scan_start_ms : Int) (now_iso : String)
    (account_id : String) (F : FindingsTable E) (c : ScanCounts) (lp : LaunchedPolicy) :
    (scan_step_policy registry R account_tags account_ou scan_start_ms now_iso account_id
      (F, c) lp).2 =
      scan_counts_policy_step registry R account_tags account_ou scan_start_ms now_iso
        account_id c lp := by
  simp only [scan_step_policy, scan_counts_policy_step]
  cases hcr : create_policy_evaluator registry lp.policy_id lp with
  | none => rfl
  | some inst =>
    exact foldl_snd_eq _ _
      (fun b cc a => scan_step_resource_snd inst account_tags account_ou scan_start_ms
        now_iso b cc a) _ F c

theorem scan_step_account_snd {C E : Type} (registry : String → Option (PolicyDefEntry C E))
    (R : ResourceTable C) (pols : List LaunchedPolicy)
    (account_tags : String → String → Option String) (account_ou : String → Option String)
    (scan_start_ms : Int) (now_iso : String) (F : FindingsTable E) (c : ScanCounts)
    (account_id : String) :
    (scan_step_account registry R pols account_tags account_ou scan_start_ms now_iso (F, c)
      account_id).2 =
      scan_counts_account_step registry R pols account_tags account_ou scan_start_ms
        now_iso c account_id := by
  simp only [scan_step_account, scan_counts_account_step]
  by_cases ha : account_id = ""
  · simp [ha]
  · simp only [ha, if_false]
    exact foldl_snd_eq _ _
      (fun b cc a => scan_step_policy_snd registry R account_tags account_ou scan_start_ms
        now_iso account_id b cc a) _ F c

theorem scan_policy_counts_indep {C E : Type}
    (registry : String → Option (PolicyDefEntry C E)) (accounts : List String)
    (launched : List LaunchedPolicy) (policy_id_filter service_filter : Option String)
    (R : ResourceTable C) (F1 F2 : FindingsTable E)
    (account_tags : String → String → Option String) (account_ou : String → Option String)
    (scan_start_ms : Int) (now_iso : String) :
    (scan_policy registry accounts launched policy_id_filter service_filter R F1
      account_tags account_ou scan_start_ms now_iso).2 =
      (scan_policy registry accounts launched policy_id_filter service_filter R F2
        account_tags account_ou scan_start_ms now_iso).2 := by
  simp only [scan_policy]
  by_cases h : (scan_active_policies registry launched policy_id_filter
    service_filter).isEmpty
  · simp [h]
  · simp only [h, Bool.false_eq_true, if_false, Option.some_inj]
    rw [foldl_snd_eq _ _
        (fun b cc a => scan_step_account_snd registry R _ account_tags account_ou
          scan_start_ms now_iso b cc a) accounts F1 ⟨0, 0, 0, 0⟩,
      foldl_snd_eq _ _
        (fun b cc a => scan_step_account_snd registry R _ account_tags account_ou
          scan_start_ms now_iso b cc a) accounts F2 ⟨0, 0, 0, 0⟩]

/-- Registry for the C7 counterexample: the single S3 public-bucket policy. -/
def scan_registry_c7 : String → Option (PolicyDefEntry S3Config S3Evidence) :=
  fun pid =>
    if pid = "S3BucketPublic" then some ⟨"s3", 90, s3_bucket_public_check⟩ else none

/-- Resource table for the C7 counterexample: one stored S3 bucket with no
public-access block (hence non-compliant), observed at time 100. -/
def scan_resources_c7 : ResourceTable S3Config :=
  Table.put Table.empty ⟨"111_s3", "arn:aws:s3:::b"⟩ ⟨{ name := some "b" }, some 100, some 100⟩

/-- C7 counterexample: sweeping twice with no underlying changes does *not*
return `findings_created = 0` on the second run — the counters count every
in-scope non-compliant (resp. compliant) evaluation, not actual store
mutations, so the second sweep over one in-scope non-compliant resource
again reports `processed = 1, skipped = 0, findings_created = 1,
findings_closed = 0`. -/
theorem reconciliation_second_sweep_counterexample :
    (scan_policy scan_registry_c7 ["111"] [⟨"S3BucketPublic", 90, {}, "active"⟩] none none
        scan_resources_c7
        (scan_policy scan_registry_c7 ["111"] [⟨"S3BucketPublic", 90, {}, "active"⟩] none
          none scan_resources_c7 (Table.empty : FindingsTable S3Evidence) (fun _ _ => none)
          (fun _ => none) 200 "T").1
        (fun _ _ => none) (fun _ => none) 200 "T").2 = some ⟨1, 0, 1, 0⟩ := by
  decide

/-- C7 as amended: running the sweep a second time on the findings store the
first run produced (with the resource store, accounts and policies
unchanged — the sweep never writes the resource store, which it only reads)
returns exactly the same counts as the first run, because the counters tally
in-scope compliant/non-compliant evaluations — already-correct findings are
re-affirmed through CAS no-op writes, but still counted; the counts are zero
only when no in-scope resources exist. -/
theorem reconciliation_second_sweep_same_counts {C E : Type}
    (registry : String → Option (PolicyDefEntry C E)) (accounts : List String)
    (launched : List LaunchedPolicy) (policy_id_filter service_filter : Option String)
    (R : ResourceTable C) (F : FindingsTable E)
    (account_tags : String → String → Option String) (account_ou : String → Option String)
    (scan_start_ms : Int) (now_iso : String) :
    (scan_policy registry accounts launched policy_id_filter service_filter R
      (scan_policy registry accounts launched policy_id_filter service_filter R F
        account_tags account_ou scan_start_ms now_iso).1
      account_tags account_ou scan_start_ms now_iso).2 =
      (scan_policy registry accounts launched policy_id_filter service_filter R F
        account_tags account_ou scan_start_ms now_iso).2 :=
  scan_policy_counts_indep registry accounts launched policy_id_filter service_filter R _
    F account_tags account_ou scan_start_ms now_iso

/-! ## C9: event ingestion (`event_processor/event_handler.py`)

The per-record body of `process_event`, starting after ARN / event-time
extraction (the extracted values are inputs here).  The external `describe`
capability's eventual result and the wall-clock describe timestamp are
passed in; the `describe_called` flag records whether the fresh-config fetch
would have been performed. -/

/-- The outcome of processing one notification record. -/
structure RecordOutcome (C E : Type) where
  resources : ResourceTable C
  findings : FindingsTable E
  describe_called : Bool
  evaluated : List String

/-- `event_handler._configs_differ`: no previous config always differs;
otherwise compare after normalization (stripping the volatile
`LastSeenAt` / `Metadata` / `LastModified` fields, abstracted as
`normalize`). -/
def configs_differ {C : Type} [DecidableEq C] (normalize : C → C) (old : Option C)
    (fresh : C) : Bool :=
  match old with
  | none => true
  | some o => normalize o ≠ normalize fresh

/-- The non-stale tail of the record body: describe (already performed by
the caller of this model, flagged via `describe_called = true`), diff, and
when changed upsert the resource and evaluate every active policy for the
service (an evaluator that cannot be built is logged and skipped). -/
def process_record_fresh {C E : Type} [DecidableEq C]
    (registry : String → Option (PolicyDefEntry C E)) (R : ResourceTable C)
    (F : FindingsTable E) (arn : String) (describe_time_ms : Int) (described_config : C)
    (service_policies : List LaunchedPolicy)
    (account_tags : String → String → Option String) (account_ou : String → Option String)
    (normalize : C → C) (now_iso : String) (account_id service : String)
    (existing : Option (ResourceItem C)) : RecordOutcome C E :=
  if !(configs_differ normalize (existing.map ResourceItem.configuration)
      described_config) then
    ⟨R, F, true, []⟩
  else
    let upserted := upsert_resource R account_id service arn described_config
      describe_time_ms
    let evald := service_policies.foldl
      (fun (acc : FindingsTable E × List String) p =>
        match create_policy_evaluator registry p.policy_id p with
        | none => acc
        | some inst =>
          let r := evaluate_template inst account_tags account_ou acc.1 arn
            described_config describe_time_ms now_iso
          (r.2, acc.2 ++ [p.policy_id]))
      (F, [])
    ⟨upserted, evald.1, true, evald.2⟩

/-- One record of `process_event`: parse account and service from the ARN (a
failure skips the record), look the resource up (`get_resource_by_arn`
returns `None` on a falsy account or service), skip as stale when the
event time is not newer than the stored `LastSeenAt` (a record lacking
`LastSeenAt` raises a `KeyError`, also caught as a per-record skip), and
otherwise proceed to describe / diff / upsert / evaluate. -/
def process_record {C E : Type} [DecidableEq C]
    (registry : String → Option (PolicyDefEntry C E)) (R : ResourceTable C)
    (F : FindingsTable E) (arn : String) (event_time : Int) (describe_time_ms : Int)
    (described_config : C) (service_policies : List LaunchedPolicy)
    (account_tags : String → String → Option String) (account_ou : String → Option String)
    (normalize : C → C) (now_iso : String) : RecordOutcome C E :=
  match get_account_from_arn arn, get_service_from_arn arn with
  | .ok account_id, .ok service =>
    let existing := if account_id = "" ∨ service = "" then none
      else R.get ⟨account_id ++ "_" ++ service, arn⟩
    match existing with
    | some item =>
      match item.lastSeenAt with
      | some last_seen =>
        if event_time ≤ last_seen then ⟨R, F, false, []⟩
        else process_record_fresh registry R F arn describe_time_ms described_config
          service_policies account_tags account_ou normalize now_iso account_id service
          (some item)
      | none => ⟨R, F, false, []⟩
    | none => process_record_fresh registry R F arn describe_time_ms described_config
        service_policies account_tags account_ou normalize now_iso account_id service none
  | _, _ => ⟨R, F, false, []⟩

/-- C9: a notification whose resource is already stored and whose extracted
event time is not newer than the stored `LastSeenAt` is skipped as stale:
no fresh configuration is fetched, both stores are left unchanged, and no
policy evaluation runs. -/
theorem stale_event_skipped {C E : Type} [DecidableEq C]
    (registry : String → Option (PolicyDefEntry C E)) (R : ResourceTable C)
    (F : FindingsTable E) (arn : String) (event_time describe_time_ms : Int)
    (described_config : C) (service_policies : List LaunchedPolicy)
    (account_tags : String → String → Option String) (account_ou : String → Option String)
    (normalize : C → C) (now_iso : String) (account_id service : String)
    (item : ResourceItem C) (last_seen : Int)
    (ha : get_account_from_arn arn = .ok account_id)
    (hs : get_service_from_arn arn = .ok service)
    (hne : ¬(account_id = "" ∨ service = ""))
    (hget : R.get ⟨account_id ++ "_" ++ service, arn⟩ = some item)
    (hls : item.lastSeenAt = some last_seen)
    (hstale : event_time ≤ last_seen) :
    process_record registry R F arn event_time describe_time_ms described_config
      service_policies account_tags account_ou normalize now_iso = ⟨R, F, false, []⟩ := by
  simp [process_record, ha, hs, hne, hget, hls, hstale]

/-- Witness for C9: an event at time 50 against a resource last seen at 100
is skipped with both stores untouched. -/
theorem stale_event_skipped_witness :
    process_record (fun _ => (none : Option (PolicyDefEntry Bool Bool)))
        (Table.put Table.empty ⟨"111_ec2", "arn:aws:ec2:us-east-1:111:instance/i-1"⟩
          ⟨true, some 100, some 100⟩)
        Table.empty "arn:aws:ec2:us-east-1:111:instance/i-1" 50 999 false []
        (fun _ _ => none) (fun _ => none) id "T" =
      ⟨Table.put Table.empty ⟨"111_ec2", "arn:aws:ec2:us-east-1:111:instance/i-1"⟩
          ⟨true, some 100, some 100⟩,
        Table.empty, false, []⟩ :=
  stale_event_skipped (fun _ => (none : Option (PolicyDefEntry Bool Bool)))
    (Table.put Table.empty ⟨"111_ec2", "arn:aws:ec2:us-east-1:111:instance/i-1"⟩
      ⟨true, some 100, some 100⟩)
    Table.empty "arn:aws:ec2:us-east-1:111:instance/i-1" 50 999 false []
    (fun _ _ => none) (fun _ => none) id "T" "111" "ec2" ⟨true, some 100, some 100⟩ 100
    rfl rfl (by decide) (by decide) rfl (by decide)

end Qrie
